import Mathlib

/-!
Verification of `scripts/check_token_contrast.py` (WCAG AA token contrast
auditor).  The Python source is shallowly embedded: RGB channel values are
real numbers, the token store (filesystem + JSON parsing) is a function
from token names to optional parsed records, and the `main` loop is explicit
state passing over the fixed pair list.
-/

namespace TokenContrast

open scoped Classical

/-- The WCAG AA minimum contrast ratio threshold, 4.5 in the source. -/
noncomputable def aaMinRatio : ℝ := 4.5

/-- The fixed configuration list of (foreground token, background token)
pairs, `PAIRS` in the source. -/
def PAIRS : List (String × String) :=
  [("textSecondary", "bgPrimary"),
   ("textSecondary", "bgCard"),
   ("textSecondary", "bgSidebar"),
   ("textSecondary", "bgInspector"),
   ("textTertiary", "bgPrimary"),
   ("textTertiary", "bgCard"),
   ("textTertiary", "bgSidebar"),
   ("textTertiary", "bgInspector"),
   ("textMuted", "bgPrimary"),
   ("textMuted", "bgCard"),
   ("textMuted", "bgSidebar"),
   ("textMuted", "bgInspector")]

/-- Embedding of `channel_to_linear`: the sRGB electro-optical transfer
inverse applied to one channel. -/
noncomputable def channel_to_linear (value : ℝ) : ℝ :=
  if value ≤ 0.04045 then value / 12.92
  else ((value + 0.055) / 1.055) ^ (2.4 : ℝ)

/-- Embedding of `luminance`: WCAG relative luminance of an RGB triple. -/
noncomputable def luminance (rgb : ℝ × ℝ × ℝ) : ℝ :=
  0.2126 * channel_to_linear rgb.1
    + 0.7152 * channel_to_linear rgb.2.1
    + 0.0722 * channel_to_linear rgb.2.2

/-- Embedding of `contrast_ratio`: (lighter + 0.05) / (darker + 0.05). -/
noncomputable def contrast_ratio (foreground background : ℝ × ℝ × ℝ) : ℝ :=
  (max (luminance foreground) (luminance background) + 0.05)
    / (min (luminance foreground) (luminance background) + 0.05)

/-- One appearance tag of a color entry: the optional `appearance` and
`value` string fields read with `.get` in the source. -/
structure AppearanceTag where
  kind : Option String
  value : Option String

/-- One entry of the `colors` array of a token record: RGB components plus the
(possibly absent, defaulting to empty) `appearances` array. -/
structure ColorEntry where
  red : ℝ
  green : ℝ
  blue : ℝ
  appearances : List AppearanceTag

/-- A parsed `Contents.json` token record: its `colors` array. -/
structure TokenRecord where
  colors : List ColorEntry

/-- The RGB triple of a color entry. -/
def rgbOf (e : ColorEntry) : ℝ × ℝ × ℝ := (e.red, e.green, e.blue)

/-- The classification loop of `load_color_variants`: an entry is dark
exactly when some appearance tag has appearance "luminosity" and value
"dark", otherwise it defaults to light. -/
def isDarkEntry (e : ColorEntry) : Bool :=
  e.appearances.any fun a =>
    decide (a.kind = some "luminosity") && decide (a.value = some "dark")

/-- The `variants` dictionary built by `load_color_variants`: only the
keys "light" and "dark" are ever written, so it is one optional sample
per variant. -/
structure VariantMap where
  light : Option (ℝ × ℝ × ℝ)
  dark : Option (ℝ × ℝ × ℝ)

/-- One iteration of the entry loop: `variants[variant] = rgb`. -/
def insertVariant (m : VariantMap) (e : ColorEntry) : VariantMap :=
  if isDarkEntry e then { m with dark := some (rgbOf e) }
  else { m with light := some (rgbOf e) }

/-- The whole entry loop of `load_color_variants`. -/
def variantsFold (colors : List ColorEntry) : VariantMap :=
  colors.foldl insertVariant ⟨none, none⟩

/-- The variant set returned on success: the dictionary after the
presence check, accessed at "light" and "dark" by `main`. -/
structure TokenVariants where
  light : ℝ × ℝ × ℝ
  dark : ℝ × ℝ × ℝ

/-- The `Contents.json` path inside the asset catalog for a token. -/
def assetPath (token : String) : String :=
  "grove/Resources/Assets.xcassets/" ++ token ++ ".colorset/Contents.json"

/-- Embedding of `load_color_variants` applied to an already-parsed
record: scan the entries, then fail unless both variants are present. -/
def load_color_variants (token : String) (record : TokenRecord) :
    Except String TokenVariants :=
  match (variantsFold record.colors).light, (variantsFold record.colors).dark with
  | some l, some d => Except.ok ⟨l, d⟩
  | _, _ =>
      Except.error ("Missing light/dark variants in " ++ assetPath token)

/-- The token store: what the filesystem read plus JSON parse yields for
each token name (`none` models a missing or unreadable record). -/
def Store : Type := String → Option TokenRecord

/-- Reading and parsing the record of a token, then extracting its variants.
A missing record is the file-read exception of the source. -/
def loadToken (store : Store) (token : String) : Except String TokenVariants :=
  match store token with
  | none => Except.error ("No such file or directory: " ++ assetPath token)
  | some record => load_color_variants token record

/-- One printed per-pair report line of `main` (status, the two token
names, and the two computed ratios). -/
structure PairLine where
  status : String
  fg : String
  bg : String
  lightRatio : ℝ
  darkRatio : ℝ

/-- The loop state of `main`: `all_pass`, `min_ratio`, `min_pair`, plus
the report lines printed so far. -/
structure RunState where
  allPass : Bool
  minRatio : ℝ
  minPair : String
  lines : List PairLine

/-- The final outcome of a successful run of `main`: the report lines,
the summary minimum and its label, and the returned exit code. -/
structure RunResult where
  lines : List PairLine
  minRatio : ℝ
  minPair : String
  exitCode : Int

/-- One iteration of the `main` loop over `PAIRS`, after both tokens have
been loaded. -/
noncomputable def stepPair (st : RunState) (textToken bgToken : String)
    (text bg : TokenVariants) : RunState :=
  let lightRatio := contrast_ratio text.light bg.light
  let darkRatio := contrast_ratio text.dark bg.dark
  let lightOk : Bool := if aaMinRatio ≤ lightRatio then true else false
  let darkOk : Bool := if aaMinRatio ≤ darkRatio then true else false
  let pairOk := lightOk && darkOk
  let minForPair := min lightRatio darkRatio
  { allPass := st.allPass && pairOk
    minRatio := if minForPair < st.minRatio then minForPair else st.minRatio
    minPair :=
      if minForPair < st.minRatio then textToken ++ " on " ++ bgToken
      else st.minPair
    lines := st.lines ++
      [⟨if pairOk then "PASS" else "FAIL", textToken, bgToken,
        lightRatio, darkRatio⟩] }

/-- the `main` loop: load both tokens of each pair (propagating the first
load error, which aborts the run) and fold `stepPair`. -/
noncomputable def processPairs (store : Store) :
    List (String × String) → RunState → Except String RunState
  | [], st => Except.ok st
  | p :: rest, st =>
    match loadToken store p.1 with
    | Except.error e => Except.error e
    | Except.ok text =>
      match loadToken store p.2 with
      | Except.error e => Except.error e
      | Except.ok bg => processPairs store rest (stepPair st p.1 p.2 text bg)

/-- Embedding of `main`: run the loop from the initial state and return
the report together with `0 if all_pass else 1`. -/
noncomputable def main (store : Store) : Except String RunResult :=
  match processPairs store PAIRS ⟨true, 999.0, "", []⟩ with
  | Except.error e => Except.error e
  | Except.ok st =>
      Except.ok ⟨st.lines, st.minRatio, st.minPair,
        if st.allPass then 0 else 1⟩

/-- Every token name referenced by the fixed pair list. -/
def referencedTokens : List String :=
  PAIRS.map Prod.fst ++ PAIRS.map Prod.snd

/-- The light-variant ratio of a pair, given the variant sets each token
resolves to. -/
noncomputable def pairLight (vars : String → TokenVariants)
    (p : String × String) : ℝ :=
  contrast_ratio (vars p.1).light (vars p.2).light

/-- The dark-variant ratio of a pair, given the variant sets each token
resolves to. -/
noncomputable def pairDark (vars : String → TokenVariants)
    (p : String × String) : ℝ :=
  contrast_ratio (vars p.1).dark (vars p.2).dark

/-- The per-pair pass flag of `main`: both variant ratios meet the
threshold. -/
noncomputable def pairOkB (vars : String → TokenVariants)
    (p : String × String) : Bool :=
  (if aaMinRatio ≤ pairLight vars p then true else false) &&
    (if aaMinRatio ≤ pairDark vars p then true else false)

/-- The report line `main` prints for one pair. -/
noncomputable def mkLine (vars : String → TokenVariants)
    (p : String × String) : PairLine :=
  ⟨if pairOkB vars p then "PASS" else "FAIL", p.1, p.2,
    pairLight vars p, pairDark vars p⟩

/-- The smaller of the two variant ratios of a pair (`min_for_pair`). -/
noncomputable def pairMin (vars : String → TokenVariants)
    (p : String × String) : ℝ :=
  min (pairLight vars p) (pairDark vars p)

/-- The pure part of the `main` loop, once every load is known to resolve
through `vars`. -/
noncomputable def runFold (vars : String → TokenVariants) :
    List (String × String) → RunState → RunState
  | [], st => st
  | p :: rest, st =>
      runFold vars rest (stepPair st p.1 p.2 (vars p.1) (vars p.2))

/-- A demonstration record for the last-wins behaviour: two
light-classified entries (the second carrying a non-dark tag) around one
dark-classified entry. -/
def demoRecord : TokenRecord :=
  ⟨[⟨0.1, 0.2, 0.3, []⟩,
    ⟨0.4, 0.5, 0.6, [⟨some "luminosity", some "dark"⟩]⟩,
    ⟨0.7, 0.8, 0.9, [⟨some "luminosity", some "light"⟩]⟩]⟩

/-- The variants the demonstration record resolves to. -/
def demoVariants : TokenVariants := ⟨(0.7, 0.8, 0.9), (0.4, 0.5, 0.6)⟩

/-- A record holding a single untagged (hence light) entry: its scan
leaves the dark slot empty. -/
def soloLightRecord : TokenRecord := ⟨[⟨0.5, 0.5, 0.5, []⟩]⟩

/-- A record resolving both variants to pure black. -/
def blackRecord : TokenRecord :=
  ⟨[⟨0, 0, 0, []⟩, ⟨0, 0, 0, [⟨some "luminosity", some "dark"⟩]⟩]⟩

/-- A record resolving both variants to pure white. -/
def whiteRecord : TokenRecord :=
  ⟨[⟨1, 1, 1, []⟩, ⟨1, 1, 1, [⟨some "luminosity", some "dark"⟩]⟩]⟩

/-- A record resolving both variants to an out-of-gamut gray whose
luminance is just above -0.05, driving the contrast ratio above the
999.0 sentinel used to initialize the running minimum. -/
def gray999Record : TokenRecord :=
  ⟨[⟨-0.6455, -0.6455, -0.6455, []⟩,
    ⟨-0.6455, -0.6455, -0.6455, [⟨some "luminosity", some "dark"⟩]⟩]⟩

/-- Whether a token name is one of the configured background tokens. -/
def isBgToken (t : String) : Bool :=
  t == "bgPrimary" || t == "bgCard" || t == "bgSidebar" || t == "bgInspector"

/-- A store giving every background token pure white and every other
token pure black, in both variants. -/
def storeBW : Store :=
  fun t => some (if isBgToken t then whiteRecord else blackRecord)

/-- A store giving every background token the out-of-gamut gray and
every other token pure black, in both variants. -/
def store999 : Store :=
  fun t => some (if isBgToken t then gray999Record else blackRecord)

/-- The variant set of pure black. -/
def blackV : TokenVariants := ⟨(0, 0, 0), (0, 0, 0)⟩

/-- The variant set of pure white. -/
def whiteV : TokenVariants := ⟨(1, 1, 1), (1, 1, 1)⟩

/-- The variant set of the out-of-gamut gray. -/
def gray999V : TokenVariants :=
  ⟨(-0.6455, -0.6455, -0.6455), (-0.6455, -0.6455, -0.6455)⟩

/-- The variant sets `storeBW` resolves each token to. -/
def varsBW : String → TokenVariants :=
  fun t => if isBgToken t then whiteV else blackV

/-- The variant sets `store999` resolves each token to. -/
def vars999 : String → TokenVariants :=
  fun t => if isBgToken t then gray999V else blackV

/-- C2: channel_to_linear is the piecewise sRGB linearization (c / 12.92
below the 0.04045 breakpoint, else ((c + 0.055) / 1.055) ^ 2.4), and
luminance is the fixed 0.2126 / 0.7152 / 0.0722 weighted sum of the
linearized channels. -/
theorem channel_luminance_formula :
    (∀ c : ℝ, channel_to_linear c =
      if c ≤ 0.04045 then c / 12.92
      else ((c + 0.055) / 1.055) ^ (2.4 : ℝ)) ∧
    (∀ r g b : ℝ, luminance (r, g, b) =
      0.2126 * channel_to_linear r + 0.7152 * channel_to_linear g
        + 0.0722 * channel_to_linear b) :=
  ⟨fun _ => rfl, fun _ _ _ => rfl⟩

/-- C3: the contrast ratio is symmetric in its two samples. -/
theorem contrast_ratio_symm (A B : ℝ × ℝ × ℝ) :
    contrast_ratio A B = contrast_ratio B A := by
  unfold contrast_ratio
  rw [max_comm, min_comm]

/-- Helper: luminance of pure black is 0. -/
lemma luminance_black : luminance (0, 0, 0) = 0 := by
  unfold luminance channel_to_linear
  norm_num

/-- Helper: luminance of pure white is 1 (the linearized channel is
((1 + 0.055) / 1.055) ^ 2.4 = 1 ^ 2.4 = 1). -/
lemma luminance_white : luminance (1, 1, 1) = 1 := by
  unfold luminance channel_to_linear
  rw [if_neg (by norm_num), show ((1 : ℝ) + 0.055) / 1.055 = 1 by norm_num,
    Real.one_rpow]
  norm_num

/-- Helper: black on white gives exactly ratio 21. -/
lemma contrast_black_white : contrast_ratio (0, 0, 0) (1, 1, 1) = 21 := by
  unfold contrast_ratio
  rw [luminance_black, luminance_white]
  norm_num

/-- C7: the contrast ratio of pure black against pure white is 21, the
WCAG maximum (exact in the real-number model). -/
theorem contrast_ratio_black_white :
    contrast_ratio (0, 0, 0) (1, 1, 1) = 21 :=
  contrast_black_white

/-- Helper: the linearized channel is nonnegative for a nonnegative
channel value. -/
lemma channel_to_linear_nonneg (c : ℝ) (h : 0 ≤ c) :
    0 ≤ channel_to_linear c := by
  unfold channel_to_linear
  split
  · positivity
  · exact Real.rpow_nonneg (div_nonneg (by linarith) (by norm_num)) _

/-- Helper: the linearized channel is at most 1 for a channel value at
most 1. -/
lemma channel_to_linear_le_one (c : ℝ) (h : c ≤ 1) :
    channel_to_linear c ≤ 1 := by
  unfold channel_to_linear
  split
  · rename_i hc
    rw [div_le_one (by norm_num)]
    linarith
  · rename_i hc
    push_neg at hc
    have h0 : (0 : ℝ) ≤ (c + 0.055) / 1.055 :=
      div_nonneg (by linarith) (by norm_num)
    have h1 : (c + 0.055) / 1.055 ≤ 1 := by
      rw [div_le_one (by norm_num)]
      linarith
    exact Real.rpow_le_one h0 h1 (by norm_num)

/-- Helper: relative luminance is nonnegative when all channels are. -/
lemma luminance_nonneg (r g b : ℝ) (hr : 0 ≤ r) (hg : 0 ≤ g)
    (hb : 0 ≤ b) : 0 ≤ luminance (r, g, b) := by
  unfold luminance
  have h1 := channel_to_linear_nonneg r hr
  have h2 := channel_to_linear_nonneg g hg
  have h3 := channel_to_linear_nonneg b hb
  linarith

/-- Helper: relative luminance is at most 1 when all channels are. -/
lemma luminance_le_one (r g b : ℝ) (hr : r ≤ 1) (hg : g ≤ 1)
    (hb : b ≤ 1) : luminance (r, g, b) ≤ 1 := by
  unfold luminance
  have h1 := channel_to_linear_le_one r hr
  have h2 := channel_to_linear_le_one g hg
  have h3 := channel_to_linear_le_one b hb
  linarith

/-- C8: two identical gray samples (all channels equal, in [0,1]) always
have contrast ratio exactly 1. -/
theorem contrast_ratio_gray_self (g : ℝ) (h0 : 0 ≤ g) (h1 : g ≤ 1) :
    contrast_ratio (g, g, g) (g, g, g) = 1 := by
  unfold contrast_ratio
  rw [max_self, min_self]
  have hpos : 0 < luminance (g, g, g) + 0.05 := by
    have := luminance_nonneg g g g h0 h0 h0
    linarith
  field_simp

/-- C8 witness: the hypotheses of the theorem hold at g = 0, where the ratio
is indeed 1. -/
theorem contrast_ratio_gray_self_witness :
    (0 : ℝ) ≤ 0 ∧ (0 : ℝ) ≤ 1 ∧ contrast_ratio (0, 0, 0) (0, 0, 0) = 1 :=
  ⟨le_refl 0, by norm_num,
    contrast_ratio_gray_self 0 (le_refl 0) (by norm_num)⟩

/-- C9: for samples whose channels all lie in [0,1], the contrast ratio
lies in the closed interval [1, 21]. -/
theorem contrast_ratio_bounds (a1 a2 a3 b1 b2 b3 : ℝ)
    (ha1 : 0 ≤ a1) (ha2 : a1 ≤ 1) (ha3 : 0 ≤ a2) (ha4 : a2 ≤ 1)
    (ha5 : 0 ≤ a3) (ha6 : a3 ≤ 1) (hb1 : 0 ≤ b1) (hb2 : b1 ≤ 1)
    (hb3 : 0 ≤ b2) (hb4 : b2 ≤ 1) (hb5 : 0 ≤ b3) (hb6 : b3 ≤ 1) :
    1 ≤ contrast_ratio (a1, a2, a3) (b1, b2, b3) ∧
      contrast_ratio (a1, a2, a3) (b1, b2, b3) ≤ 21 := by
  unfold contrast_ratio
  set lf := luminance (a1, a2, a3) with hlf
  set lb := luminance (b1, b2, b3) with hlb
  have hf0 : 0 ≤ lf := luminance_nonneg _ _ _ ha1 ha3 ha5
  have hf1 : lf ≤ 1 := luminance_le_one _ _ _ ha2 ha4 ha6
  have hg0 : 0 ≤ lb := luminance_nonneg _ _ _ hb1 hb3 hb5
  have hg1 : lb ≤ 1 := luminance_le_one _ _ _ hb2 hb4 hb6
  have hminpos : 0 < min lf lb + 0.05 := by
    rcases le_total lf lb with h | h
    · rw [min_eq_left h]; linarith
    · rw [min_eq_right h]; linarith
  constructor
  · rw [le_div_iff₀ hminpos]
    have : min lf lb ≤ max lf lb := min_le_max
    linarith
  · rw [div_le_iff₀ hminpos]
    have h1 : max lf lb ≤ 1 := max_le hf1 hg1
    have h2 : 0 ≤ min lf lb := le_min hf0 hg0
    linarith

/-- C9 witness: the bounds theorem applies to black on white, whose
channels are all in range. -/
theorem contrast_ratio_bounds_witness :
    (0 : ℝ) ≤ 0 ∧ (0 : ℝ) ≤ 1 ∧ (0 : ℝ) ≤ 1 ∧ (1 : ℝ) ≤ 1 ∧
    1 ≤ contrast_ratio (0, 0, 0) (1, 1, 1) ∧
      contrast_ratio (0, 0, 0) (1, 1, 1) ≤ 21 := by
  refine ⟨le_refl 0, by norm_num, by norm_num, le_refl 1, ?_⟩
  exact contrast_ratio_bounds 0 0 0 1 1 1 (le_refl 0) (by norm_num)
    (le_refl 0) (by norm_num) (le_refl 0) (by norm_num) (by norm_num)
    (le_refl 1) (by norm_num) (le_refl 1) (by norm_num) (le_refl 1)

/-- Helper: after the entry scan, the light slot holds the last
light-classified entry of the record (or the initial value if none). -/
lemma foldl_insertVariant_light (cs : List ColorEntry) (m : VariantMap) :
    (cs.foldl insertVariant m).light =
      (((cs.filter fun e => !isDarkEntry e).getLast?).map rgbOf).or m.light := by
  induction cs using List.reverseRecOn with
  | nil => simp
  | append_singleton l a ih =>
    rw [List.foldl_append, List.filter_append]
    cases hda : isDarkEntry a
    · simp [insertVariant, hda, List.getLast?_concat, Option.or]
    · simp [insertVariant, hda, ih]

/-- Helper: after the entry scan, the dark slot holds the last
dark-classified entry of the record (or the initial value if none). -/
lemma foldl_insertVariant_dark (cs : List ColorEntry) (m : VariantMap) :
    (cs.foldl insertVariant m).dark =
      (((cs.filter fun e => isDarkEntry e).getLast?).map rgbOf).or m.dark := by
  induction cs using List.reverseRecOn with
  | nil => simp
  | append_singleton l a ih =>
    rw [List.foldl_append, List.filter_append]
    cases hda : isDarkEntry a
    · simp [insertVariant, hda, ih]
    · simp [insertVariant, hda, List.getLast?_concat, Option.or]

/-- Helper: the light slot of the scan, starting from the empty dictionary,
is the last light-classified entry. -/
lemma variantsFold_light (cs : List ColorEntry) :
    (variantsFold cs).light =
      ((cs.filter fun e => !isDarkEntry e).getLast?).map rgbOf := by
  rw [variantsFold, foldl_insertVariant_light]
  cases ((cs.filter fun e => !isDarkEntry e).getLast?).map rgbOf <;> rfl

/-- Helper: the dark slot of the scan, starting from the empty dictionary, is
the last dark-classified entry. -/
lemma variantsFold_dark (cs : List ColorEntry) :
    (variantsFold cs).dark =
      ((cs.filter fun e => isDarkEntry e).getLast?).map rgbOf := by
  rw [variantsFold, foldl_insertVariant_dark]
  cases ((cs.filter fun e => isDarkEntry e).getLast?).map rgbOf <;> rfl

/-- C5: an entry is classified dark exactly when it carries a
luminosity/dark appearance tag (light otherwise), and on success the
returned sample of each variant is the last entry of the record that was
classified into that variant. -/
theorem load_color_variants_classification (token : String)
    (record : TokenRecord) :
    (∀ e : ColorEntry, isDarkEntry e = true ↔
      ∃ a ∈ e.appearances,
        a.kind = some "luminosity" ∧ a.value = some "dark") ∧
    ∀ v, load_color_variants token record = Except.ok v →
      ((record.colors.filter fun e => !isDarkEntry e).getLast?).map rgbOf
          = some v.light ∧
      ((record.colors.filter fun e => isDarkEntry e).getLast?).map rgbOf
          = some v.dark := by
  constructor
  · intro e
    simp [isDarkEntry, List.any_eq_true, Bool.and_eq_true,
      decide_eq_true_eq]
  · intro v hv
    unfold load_color_variants at hv
    rcases hl : (variantsFold record.colors).light with _ | l
    · rw [hl] at hv; cases hv
    · rcases hd : (variantsFold record.colors).dark with _ | d
      · rw [hl, hd] at hv; cases hv
      · rw [hl, hd] at hv
        simp only [Except.ok.injEq] at hv
        subst hv
        rw [variantsFold_light] at hl
        rw [variantsFold_dark] at hd
        exact ⟨hl, hd⟩

/-- C5 witness: on the demonstration record the loader succeeds, and the
returned samples are the last light and last dark entries. -/
theorem load_color_variants_classification_witness :
    load_color_variants "demo" demoRecord = Except.ok demoVariants ∧
    (((demoRecord.colors.filter fun e => !isDarkEntry e).getLast?).map rgbOf
        = some demoVariants.light ∧
      ((demoRecord.colors.filter fun e => isDarkEntry e).getLast?).map rgbOf
        = some demoVariants.dark) :=
  ⟨rfl,
    (load_color_variants_classification "demo" demoRecord).2
      demoVariants rfl⟩

/-- Helper: a record whose scan leaves either variant slot empty makes
the loader fail with the missing-variant message naming the expected
file of the token. -/
lemma load_color_variants_missing (token : String) (record : TokenRecord)
    (h : (variantsFold record.colors).light = none ∨
      (variantsFold record.colors).dark = none) :
    load_color_variants token record =
      Except.error ("Missing light/dark variants in " ++ assetPath token) := by
  unfold load_color_variants
  rcases h with h | h
  · rw [h]
  · rw [h]
    rcases (variantsFold record.colors).light with _ | l <;> rfl

/-- Helper: a successful run of the pair loop implies that both tokens
of every pair loaded successfully. -/
lemma processPairs_ok_loads (store : Store) (pairs : List (String × String))
    (st st2 : RunState) (h : processPairs store pairs st = Except.ok st2) :
    ∀ p ∈ pairs, (∃ v, loadToken store p.1 = Except.ok v) ∧
      (∃ v, loadToken store p.2 = Except.ok v) := by
  induction pairs generalizing st with
  | nil => intro p hp; cases hp
  | cons q rest ih =>
    intro p hp
    rw [processPairs] at h
    rcases h1 : loadToken store q.1 with e | text
    · rw [h1] at h; cases h
    · rw [h1] at h
      rcases h2 : loadToken store q.2 with e | bg
      · rw [h2] at h; cases h
      · rw [h2] at h
        rcases List.mem_cons.mp hp with rfl | hp2
        · exact ⟨⟨text, h1⟩, ⟨bg, h2⟩⟩
        · exact ih _ h p hp2

/-- C6: a token record missing the light or dark variant after the scan
makes the loader fail with an error naming the expected token file,
and such a failure for any referenced token aborts the whole run of main
(main yields an error, not a report). -/
theorem missing_variant_aborts (token : String) (record : TokenRecord)
    (h : (variantsFold record.colors).light = none ∨
      (variantsFold record.colors).dark = none) :
    load_color_variants token record =
      Except.error ("Missing light/dark variants in " ++ assetPath token) ∧
    ∀ (store : Store) (t : String), t ∈ referencedTokens →
      store t = some record → ∃ e, main store = Except.error e := by
  refine ⟨load_color_variants_missing token record h, ?_⟩
  intro store t ht hstore
  rcases hres : main store with e | res
  · exact ⟨e, rfl⟩
  · exfalso
    rw [main] at hres
    rcases hp : processPairs store PAIRS ⟨true, 999.0, "", []⟩ with e | st2
    · rw [hp] at hres; cases hres
    · have hload : ∃ v, loadToken store t = Except.ok v := by
        have ht2 := ht
        simp only [referencedTokens, List.mem_append, List.mem_map] at ht2
        rcases ht2 with ⟨p, hpmem, hpt⟩ | ⟨p, hpmem, hpt⟩
        · rw [← hpt]
          exact (processPairs_ok_loads store PAIRS _ _ hp p hpmem).1
        · rw [← hpt]
          exact (processPairs_ok_loads store PAIRS _ _ hp p hpmem).2
      rcases hload with ⟨v, hv⟩
      have hlt : loadToken store t = load_color_variants t record := by
        rw [loadToken, hstore]
      rw [hlt, load_color_variants_missing t record h] at hv
      cases hv

/-- C6 witness: the single-entry record indeed lacks a dark variant and
the loader rejects it with the missing-variant error naming the file
of that token. -/
theorem missing_variant_aborts_witness :
    (variantsFold soloLightRecord.colors).dark = none ∧
    load_color_variants "textMuted" soloLightRecord =
      Except.error
        ("Missing light/dark variants in " ++ assetPath "textMuted") :=
  ⟨rfl,
    (missing_variant_aborts "textMuted" soloLightRecord (Or.inr rfl)).1⟩

/-- Helper: the `all_pass` update of the loop body. -/
lemma stepPair_allPass (st : RunState) (vars : String → TokenVariants)
    (p : String × String) :
    (stepPair st p.1 p.2 (vars p.1) (vars p.2)).allPass =
      (st.allPass && pairOkB vars p) := rfl

/-- Helper: the `min_ratio` update of the loop body. -/
lemma stepPair_minRatio (st : RunState) (vars : String → TokenVariants)
    (p : String × String) :
    (stepPair st p.1 p.2 (vars p.1) (vars p.2)).minRatio =
      if pairMin vars p < st.minRatio then pairMin vars p
      else st.minRatio := rfl

/-- Helper: the `min_pair` update of the loop body. -/
lemma stepPair_minPair (st : RunState) (vars : String → TokenVariants)
    (p : String × String) :
    (stepPair st p.1 p.2 (vars p.1) (vars p.2)).minPair =
      if pairMin vars p < st.minRatio then p.1 ++ " on " ++ p.2
      else st.minPair := rfl

/-- Helper: the loop body appends exactly one report line. -/
lemma stepPair_lines (st : RunState) (vars : String → TokenVariants)
    (p : String × String) :
    (stepPair st p.1 p.2 (vars p.1) (vars p.2)).lines =
      st.lines ++ [mkLine vars p] := rfl

/-- Helper: the loop appends one report line per pair, in order. -/
lemma runFold_lines (vars : String → TokenVariants)
    (pairs : List (String × String)) (st : RunState) :
    (runFold vars pairs st).lines = st.lines ++ pairs.map (mkLine vars) := by
  induction pairs generalizing st with
  | nil => simp [runFold]
  | cons p rest ih =>
    rw [runFold, ih, stepPair_lines]
    simp

/-- Helper: the final `all_pass` of the loop is the conjunction of the
initial flag with the pass flag of every pair. -/
lemma runFold_allPass (vars : String → TokenVariants)
    (pairs : List (String × String)) (st : RunState) :
    (runFold vars pairs st).allPass =
      (st.allPass && pairs.all (pairOkB vars)) := by
  induction pairs generalizing st with
  | nil => simp [runFold]
  | cons p rest ih =>
    rw [runFold, ih, stepPair_allPass]
    simp [Bool.and_assoc]

/-- Helper: when both tokens of every pair load through `vars`, the loop
is its pure fold. -/
lemma processPairs_eq_runFold (store : Store)
    (vars : String → TokenVariants) (pairs : List (String × String))
    (st : RunState)
    (h : ∀ p ∈ pairs, loadToken store p.1 = Except.ok (vars p.1) ∧
      loadToken store p.2 = Except.ok (vars p.2)) :
    processPairs store pairs st = Except.ok (runFold vars pairs st) := by
  induction pairs generalizing st with
  | nil => rfl
  | cons p rest ih =>
    rw [processPairs, (h p (List.mem_cons_self p rest)).1,
      (h p (List.mem_cons_self p rest)).2, runFold]
    exact ih _ fun q hq => h q (List.mem_cons_of_mem p hq)

/-- Helper: per-pair load success follows from success of every
referenced token. -/
lemma loads_of_referenced (store : Store) (vars : String → TokenVariants)
    (h : ∀ t ∈ referencedTokens, loadToken store t = Except.ok (vars t)) :
    ∀ p ∈ PAIRS, loadToken store p.1 = Except.ok (vars p.1) ∧
      loadToken store p.2 = Except.ok (vars p.2) := by
  intro p hp
  constructor
  · exact h p.1 (by
      simp only [referencedTokens, List.mem_append, List.mem_map]
      exact Or.inl ⟨p, hp, rfl⟩)
  · exact h p.2 (by
      simp only [referencedTokens, List.mem_append, List.mem_map]
      exact Or.inr ⟨p, hp, rfl⟩)

/-- Helper, the invariant of the running-minimum tracking: either no
pair beat the initial minimum (the fields are untouched and the minimum
of every pair is at least the initial one), or the final minimum is
attained by some pair, is below the initial value, is strictly below the
minimum of every earlier pair, and is at most the minimum of every
pair. -/
lemma runFold_min_spec (vars : String → TokenVariants)
    (pairs : List (String × String)) (st : RunState) :
    ((runFold vars pairs st).minRatio = st.minRatio ∧
      (runFold vars pairs st).minPair = st.minPair ∧
      ∀ p ∈ pairs, st.minRatio ≤ pairMin vars p) ∨
    (∃ i, ∃ hi : i < pairs.length,
      (runFold vars pairs st).minRatio = pairMin vars (pairs.get ⟨i, hi⟩) ∧
      (runFold vars pairs st).minPair =
        (pairs.get ⟨i, hi⟩).1 ++ " on " ++ (pairs.get ⟨i, hi⟩).2 ∧
      (runFold vars pairs st).minRatio < st.minRatio ∧
      (∀ j, ∀ hj : j < pairs.length, j < i →
        (runFold vars pairs st).minRatio < pairMin vars (pairs.get ⟨j, hj⟩)) ∧
      ∀ p ∈ pairs, (runFold vars pairs st).minRatio ≤ pairMin vars p) := by
  induction pairs generalizing st with
  | nil =>
    left
    exact ⟨rfl, rfl, by intro p hp; cases hp⟩
  | cons p rest ih =>
    rw [runFold]
    have hstep := ih (stepPair st p.1 p.2 (vars p.1) (vars p.2))
    have hmr := stepPair_minRatio st vars p
    have hmp := stepPair_minPair st vars p
    by_cases hcmp : pairMin vars p < st.minRatio
    · rw [if_pos hcmp] at hmr hmp
      rcases hstep with ⟨h1, h2, h3⟩ | ⟨i, hi, h1, h2, h3, h4, h5⟩
      · right
        refine ⟨0, by simp, ?_, ?_, ?_, ?_, ?_⟩
        · rw [h1, hmr]; rfl
        · rw [h2, hmp]; rfl
        · rw [h1, hmr]; exact hcmp
        · intro j hj hj0; omega
        · intro q hq
          rcases List.mem_cons.mp hq with rfl | hq2
          · rw [h1, hmr]
          · rw [h1, hmr]
            have := h3 q hq2
            rw [hmr] at this
            exact this
      · right
        refine ⟨i + 1, by simpa using Nat.succ_lt_succ hi, ?_, ?_, ?_, ?_, ?_⟩
        · exact h1
        · exact h2
        · rw [hmr] at h3
          exact lt_trans h3 hcmp
        · intro j hj hji
          rcases j with _ | k
          · rw [hmr] at h3
            exact h3
          · exact h4 k (by omega) (by omega)
        · intro q hq
          rcases List.mem_cons.mp hq with rfl | hq2
          · rw [hmr] at h3
            exact le_of_lt h3
          · exact h5 q hq2
    · rw [if_neg hcmp] at hmr hmp
      have hge : st.minRatio ≤ pairMin vars p := not_lt.mp hcmp
      rcases hstep with ⟨h1, h2, h3⟩ | ⟨i, hi, h1, h2, h3, h4, h5⟩
      · left
        refine ⟨by rw [h1, hmr], by rw [h2, hmp], ?_⟩
        intro q hq
        rcases List.mem_cons.mp hq with rfl | hq2
        · exact hge
        · have := h3 q hq2
          rw [hmr] at this
          exact this
      · right
        refine ⟨i + 1, by simpa using Nat.succ_lt_succ hi, ?_, ?_, ?_, ?_, ?_⟩
        · exact h1
        · exact h2
        · rw [hmr] at h3
          exact h3
        · intro j hj hji
          rcases j with _ | k
          · rw [hmr] at h3
            exact lt_of_lt_of_le h3 hge
          · exact h4 k (by omega) (by omega)
        · intro q hq
          rcases List.mem_cons.mp hq with rfl | hq2
          · rw [hmr] at h3
            exact le_of_lt (lt_of_lt_of_le h3 hge)
          · exact h5 q hq2

/-- Helper: a report line reads PASS exactly when both ratios meet the
threshold. -/
lemma mkLine_status_iff (vars : String → TokenVariants)
    (p : String × String) :
    (mkLine vars p).status = "PASS" ↔
      aaMinRatio ≤ pairLight vars p ∧ aaMinRatio ≤ pairDark vars p := by
  unfold mkLine pairOkB
  by_cases h1 : aaMinRatio ≤ pairLight vars p <;>
    by_cases h2 : aaMinRatio ≤ pairDark vars p <;>
      simp [h1, h2]

/-- Helper: a report line reads PASS exactly when the flag of the pair
is set. -/
lemma mkLine_status_eq_pass_iff (vars : String → TokenVariants)
    (p : String × String) :
    (mkLine vars p).status = "PASS" ↔ pairOkB vars p = true := by
  unfold mkLine
  by_cases hb : pairOkB vars p <;> simp [hb]

/-- Helper: a report line reads PASS or FAIL, nothing else. -/
lemma mkLine_status_cases (vars : String → TokenVariants)
    (p : String × String) :
    (mkLine vars p).status = "PASS" ∨ (mkLine vars p).status = "FAIL" := by
  unfold mkLine
  by_cases hb : pairOkB vars p <;> simp [hb]

/-- Helper: indexing a list known to be a map. -/
lemma get_of_map_eq {α β : Type} (l : List α) (f : α → β) (L : List β)
    (hL : L = l.map f) (i : ℕ) (hi : i < l.length) (hi2 : i < L.length) :
    L.get ⟨i, hi2⟩ = f (l.get ⟨i, hi⟩) := by
  subst hL
  simp [List.get_eq_getElem]

/-- C1: when every referenced token loads, main returns a report with
one line per configured pair in order, each line carrying the tokens
of that pair and its light and dark ratios (light samples together, dark
samples together), reading PASS exactly when both ratios are at least
the 4.5 threshold and FAIL otherwise; the exit status is 0 exactly when
every line is PASS, and 1 otherwise. -/
theorem main_pass_fail_exit_status (store : Store)
    (vars : String → TokenVariants)
    (h : ∀ t ∈ referencedTokens, loadToken store t = Except.ok (vars t)) :
    aaMinRatio = 4.5 ∧
    ∃ res, main store = Except.ok res ∧
      res.lines.length = PAIRS.length ∧
      (∀ i, ∀ hi : i < PAIRS.length, ∀ hi2 : i < res.lines.length,
        (res.lines.get ⟨i, hi2⟩).fg = (PAIRS.get ⟨i, hi⟩).1 ∧
        (res.lines.get ⟨i, hi2⟩).bg = (PAIRS.get ⟨i, hi⟩).2 ∧
        (res.lines.get ⟨i, hi2⟩).lightRatio =
          contrast_ratio (vars (PAIRS.get ⟨i, hi⟩).1).light
            (vars (PAIRS.get ⟨i, hi⟩).2).light ∧
        (res.lines.get ⟨i, hi2⟩).darkRatio =
          contrast_ratio (vars (PAIRS.get ⟨i, hi⟩).1).dark
            (vars (PAIRS.get ⟨i, hi⟩).2).dark ∧
        ((res.lines.get ⟨i, hi2⟩).status = "PASS" ↔
          aaMinRatio ≤ (res.lines.get ⟨i, hi2⟩).lightRatio ∧
            aaMinRatio ≤ (res.lines.get ⟨i, hi2⟩).darkRatio) ∧
        ((res.lines.get ⟨i, hi2⟩).status = "PASS" ∨
          (res.lines.get ⟨i, hi2⟩).status = "FAIL")) ∧
      (res.exitCode = 0 ↔ ∀ l ∈ res.lines, l.status = "PASS") ∧
      (res.exitCode = 0 ∨ res.exitCode = 1) := by
  refine ⟨rfl, ?_⟩
  have hp := processPairs_eq_runFold store vars PAIRS ⟨true, 999.0, "", []⟩
    (loads_of_referenced store vars h)
  set F := runFold vars PAIRS (⟨true, 999.0, "", []⟩ : RunState) with hF
  have hlines : F.lines = PAIRS.map (mkLine vars) := by
    rw [hF]
    simpa using runFold_lines vars PAIRS ⟨true, 999.0, "", []⟩
  have hall : F.allPass = PAIRS.all (pairOkB vars) := by
    rw [hF]
    simpa using runFold_allPass vars PAIRS ⟨true, 999.0, "", []⟩
  refine ⟨⟨F.lines, F.minRatio, F.minPair, if F.allPass then 0 else 1⟩,
    ?_, ?_, ?_, ?_, ?_⟩
  · rw [main, hp]
  · simp [hlines]
  · intro i hi hi2
    have e1 : F.lines.get ⟨i, hi2⟩ = mkLine vars (PAIRS.get ⟨i, hi⟩) :=
      get_of_map_eq PAIRS (mkLine vars) F.lines hlines i hi hi2
    rw [e1]
    exact ⟨rfl, rfl, rfl, rfl, mkLine_status_iff vars _,
      mkLine_status_cases vars _⟩
  · have hforall : (∀ l ∈ F.lines, l.status = "PASS") ↔
        (PAIRS.all (pairOkB vars) = true) := by
      rw [hlines, List.all_eq_true]
      constructor
      · intro hl p hpm
        exact (mkLine_status_eq_pass_iff vars p).mp
          (hl _ (List.mem_map_of_mem _ hpm))
      · intro hpo l hl
        rcases List.mem_map.mp hl with ⟨p, hpm, rfl⟩
        exact (mkLine_status_eq_pass_iff vars p).mpr (hpo p hpm)
    rcases hb : F.allPass with _ | _
    · rw [hall] at hb
      simp only [hb]
      constructor
      · intro h0; cases h0
      · intro hc
        exact absurd (hforall.mp hc) (by rw [hb]; simp)
    · rw [hall] at hb
      simp only [hb]
      constructor
      · intro _
        exact hforall.mpr hb
      · intro _
        rfl
  · rcases hb : F.allPass <;> simp [hb]

/-- C10: whenever main returns normally, the exit status is exactly 0 or
exactly 1. -/
theorem main_exit_zero_or_one (store : Store) (res : RunResult)
    (h : main store = Except.ok res) :
    res.exitCode = 0 ∨ res.exitCode = 1 := by
  rw [main] at h
  rcases hp : processPairs store PAIRS ⟨true, 999.0, "", []⟩ with e | st
  · rw [hp] at h; cases h
  · rw [hp] at h
    simp only [Except.ok.injEq] at h
    subst h
    rcases hb : st.allPass <;> simp [hb]

/-- C4 (amended): when every referenced token loads and some computed
ratio is below the 999.0 sentinel initializing the running minimum, the
reported minimum is a lower bound of all (pair, variant) ratios, is
attained as the light or dark ratio of the labelled pair, and the label
names the first pair (in configuration order) attaining it — all
strictly earlier pairs have both ratios strictly above it. -/
theorem main_min_first_attainer (store : Store)
    (vars : String → TokenVariants)
    (h : ∀ t ∈ referencedTokens, loadToken store t = Except.ok (vars t))
    (hlow : ∃ p ∈ PAIRS,
      contrast_ratio (vars p.1).light (vars p.2).light < 999 ∨
        contrast_ratio (vars p.1).dark (vars p.2).dark < 999) :
    ∃ res, main store = Except.ok res ∧
      (∀ p ∈ PAIRS,
        res.minRatio ≤ contrast_ratio (vars p.1).light (vars p.2).light ∧
        res.minRatio ≤ contrast_ratio (vars p.1).dark (vars p.2).dark) ∧
      ∃ i, ∃ hi : i < PAIRS.length,
        res.minPair =
          (PAIRS.get ⟨i, hi⟩).1 ++ " on " ++ (PAIRS.get ⟨i, hi⟩).2 ∧
        (res.minRatio =
            contrast_ratio (vars (PAIRS.get ⟨i, hi⟩).1).light
              (vars (PAIRS.get ⟨i, hi⟩).2).light ∨
          res.minRatio =
            contrast_ratio (vars (PAIRS.get ⟨i, hi⟩).1).dark
              (vars (PAIRS.get ⟨i, hi⟩).2).dark) ∧
        ∀ j, ∀ hj : j < PAIRS.length, j < i →
          res.minRatio <
              contrast_ratio (vars (PAIRS.get ⟨j, hj⟩).1).light
                (vars (PAIRS.get ⟨j, hj⟩).2).light ∧
            res.minRatio <
              contrast_ratio (vars (PAIRS.get ⟨j, hj⟩).1).dark
                (vars (PAIRS.get ⟨j, hj⟩).2).dark := by
  have hp := processPairs_eq_runFold store vars PAIRS ⟨true, 999.0, "", []⟩
    (loads_of_referenced store vars h)
  set F := runFold vars PAIRS (⟨true, 999.0, "", []⟩ : RunState) with hF
  have hmain : main store =
      Except.ok ⟨F.lines, F.minRatio, F.minPair,
        if F.allPass then 0 else 1⟩ := by
    rw [main, hp]
  rcases runFold_min_spec vars PAIRS ⟨true, 999.0, "", []⟩ with
    ⟨h1, h2, h3⟩ | ⟨i, hi, h1, h2, h3, h4, h5⟩
  · exfalso
    rcases hlow with ⟨p, hpm, hlt⟩
    have h999 := h3 p hpm
    have hm : pairMin vars p < 999 := by
      rcases hlt with hl | hl
      · exact lt_of_le_of_lt (min_le_left _ _) hl
      · exact lt_of_le_of_lt (min_le_right _ _) hl
    have h999b : (999.0 : ℝ) ≤ pairMin vars p := h999
    norm_num at h999b
    linarith
  · refine ⟨⟨F.lines, F.minRatio, F.minPair, if F.allPass then 0 else 1⟩,
      hmain, ?_, i, hi, h2, ?_, ?_⟩
    · intro p hpm
      have hle := h5 p hpm
      exact ⟨le_trans hle (min_le_left _ _), le_trans hle (min_le_right _ _)⟩
    · rcases min_choice (pairLight vars (PAIRS.get ⟨i, hi⟩))
        (pairDark vars (PAIRS.get ⟨i, hi⟩)) with hc | hc
      · exact Or.inl (h1.trans hc)
      · exact Or.inr (h1.trans hc)
    · intro j hj hji
      have hltj := h4 j hj hji
      exact ⟨lt_of_lt_of_le hltj (min_le_left _ _),
        lt_of_lt_of_le hltj (min_le_right _ _)⟩

/-- Helper: every token of the black/white store loads to its black or
white variant set. -/
lemma loadToken_storeBW (t : String) :
    loadToken storeBW t = Except.ok (varsBW t) := by
  show load_color_variants t (if isBgToken t then whiteRecord else blackRecord)
    = Except.ok (if isBgToken t then whiteV else blackV)
  cases isBgToken t
  · rfl
  · rfl

/-- Helper: every token of the out-of-gamut store loads to its black or
gray variant set. -/
lemma loadToken_store999 (t : String) :
    loadToken store999 t = Except.ok (vars999 t) := by
  show load_color_variants t
      (if isBgToken t then gray999Record else blackRecord)
    = Except.ok (if isBgToken t then gray999V else blackV)
  cases isBgToken t
  · rfl
  · rfl

/-- C1 witness: on the black/white store every referenced token loads,
and main succeeds with one report line per configured pair. -/
theorem main_pass_fail_exit_status_witness :
    (∀ t ∈ referencedTokens, loadToken storeBW t = Except.ok (varsBW t)) ∧
    aaMinRatio = 4.5 ∧
    ∃ res, main storeBW = Except.ok res ∧
      res.lines.length = PAIRS.length ∧
      (res.exitCode = 0 ∨ res.exitCode = 1) := by
  have hld : ∀ t ∈ referencedTokens,
      loadToken storeBW t = Except.ok (varsBW t) :=
    fun t _ => loadToken_storeBW t
  have hc := main_pass_fail_exit_status storeBW varsBW hld
  rcases hc with ⟨haa, res, hm, hlen, _, _, hexit⟩
  exact ⟨hld, haa, res, hm, hlen, hexit⟩

/-- C10 witness: main succeeds on the black/white store, with exit
status 0 or 1. -/
theorem main_exit_zero_or_one_witness :
    ∃ res, main storeBW = Except.ok res ∧
      (res.exitCode = 0 ∨ res.exitCode = 1) := by
  have hp := processPairs_eq_runFold storeBW varsBW PAIRS
    ⟨true, 999.0, "", []⟩
    (fun p _ => ⟨loadToken_storeBW p.1, loadToken_storeBW p.2⟩)
  have hmain : main storeBW =
      Except.ok ⟨(runFold varsBW PAIRS ⟨true, 999.0, "", []⟩).lines,
        (runFold varsBW PAIRS ⟨true, 999.0, "", []⟩).minRatio,
        (runFold varsBW PAIRS ⟨true, 999.0, "", []⟩).minPair,
        if (runFold varsBW PAIRS ⟨true, 999.0, "", []⟩).allPass then 0
        else 1⟩ := by
    rw [main, hp]
  exact ⟨_, hmain, main_exit_zero_or_one storeBW _ hmain⟩

/-- C4 witness: on the black/white store every token loads, the light
ratio of the first pair (21) is below the sentinel, and the reported label
names a configured pair. -/
theorem main_min_first_attainer_witness :
    (∀ t ∈ referencedTokens, loadToken storeBW t = Except.ok (varsBW t)) ∧
    (∃ p ∈ PAIRS,
      contrast_ratio (varsBW p.1).light (varsBW p.2).light < 999 ∨
        contrast_ratio (varsBW p.1).dark (varsBW p.2).dark < 999) ∧
    ∃ res, main storeBW = Except.ok res ∧
      ∃ i, ∃ hi : i < PAIRS.length,
        res.minPair =
          (PAIRS.get ⟨i, hi⟩).1 ++ " on " ++ (PAIRS.get ⟨i, hi⟩).2 := by
  have hld : ∀ t ∈ referencedTokens,
      loadToken storeBW t = Except.ok (varsBW t) :=
    fun t _ => loadToken_storeBW t
  have h21 : contrast_ratio (varsBW "textSecondary").light
      (varsBW "bgPrimary").light = 21 := contrast_black_white
  have hlow : ∃ p ∈ PAIRS,
      contrast_ratio (varsBW p.1).light (varsBW p.2).light < 999 ∨
        contrast_ratio (varsBW p.1).dark (varsBW p.2).dark < 999 := by
    refine ⟨("textSecondary", "bgPrimary"), ?_, Or.inl ?_⟩
    · rw [PAIRS]
      exact List.mem_cons_self _ _
    · rw [h21]
      norm_num
  rcases main_min_first_attainer storeBW varsBW hld hlow with
    ⟨res, hm, _, i, hi, hlab, _, _⟩
  exact ⟨hld, hlow, res, hm, i, hi, hlab⟩

/-- Helper: the luminance of the out-of-gamut gray, on the linear branch of
the transfer function. -/
lemma luminance_gray999 :
    luminance (-0.6455, -0.6455, -0.6455) = -0.6455 / 12.92 := by
  unfold luminance channel_to_linear
  rw [if_pos (by norm_num : (-0.6455 : ℝ) ≤ 0.04045)]
  ring

/-- Helper: black against the out-of-gamut gray yields ratio 1292,
above the 999.0 sentinel. -/
lemma contrast_black_gray999 :
    contrast_ratio (0, 0, 0) (-0.6455, -0.6455, -0.6455) = 1292 := by
  unfold contrast_ratio
  rw [luminance_black, luminance_gray999,
    max_eq_left (by norm_num : (-0.6455 : ℝ) / 12.92 ≤ 0),
    min_eq_right (by norm_num : (-0.6455 : ℝ) / 12.92 ≤ 0)]
  norm_num

/-- Helper: on the out-of-gamut store, the ratios of every configured
pair are all 1292. -/
lemma pairMin_vars999 (p : String × String) (hp : p ∈ PAIRS) :
    pairMin vars999 p = 1292 ∧ pairLight vars999 p = 1292 ∧
      pairDark vars999 p = 1292 := by
  have hv : vars999 p.1 = blackV ∧ vars999 p.2 = gray999V := by
    fin_cases hp <;> exact ⟨rfl, rfl⟩
  have hL : pairLight vars999 p = 1292 := by
    unfold pairLight
    rw [hv.1, hv.2]
    exact contrast_black_gray999
  have hD : pairDark vars999 p = 1292 := by
    unfold pairDark
    rw [hv.1, hv.2]
    exact contrast_black_gray999
  refine ⟨?_, hL, hD⟩
  unfold pairMin
  rw [hL, hD, min_self]

/-- C4 counterexample: on the out-of-gamut store every token loads, yet
the reported minimum stays at the 999.0 sentinel with an empty label,
strictly below every computed ratio (all 1292) — so it is not the
minimum of the computed ratios and its label names no pair. -/
theorem min_sentinel_counterexample :
    (∀ t ∈ referencedTokens, loadToken store999 t = Except.ok (vars999 t)) ∧
    ∃ res, main store999 = Except.ok res ∧
      res.lines ≠ [] ∧ res.minRatio = 999.0 ∧ res.minPair = "" ∧
      (∀ l ∈ res.lines, l.lightRatio = 1292 ∧ l.darkRatio = 1292) ∧
      (∀ l ∈ res.lines,
        res.minRatio < l.lightRatio ∧ res.minRatio < l.darkRatio) ∧
      ∀ l ∈ res.lines, res.minPair ≠ l.fg ++ " on " ++ l.bg := by
  have hld : ∀ t ∈ referencedTokens,
      loadToken store999 t = Except.ok (vars999 t) :=
    fun t _ => loadToken_store999 t
  refine ⟨hld, ?_⟩
  have hp := processPairs_eq_runFold store999 vars999 PAIRS
    ⟨true, 999.0, "", []⟩
    (fun p _ => ⟨loadToken_store999 p.1, loadToken_store999 p.2⟩)
  set F := runFold vars999 PAIRS (⟨true, 999.0, "", []⟩ : RunState) with hF
  have hmain : main store999 =
      Except.ok ⟨F.lines, F.minRatio, F.minPair,
        if F.allPass then 0 else 1⟩ := by
    rw [main, hp]
  have hlines : F.lines = PAIRS.map (mkLine vars999) := by
    rw [hF]
    simpa using runFold_lines vars999 PAIRS ⟨true, 999.0, "", []⟩
  have hmin : F.minRatio = 999.0 ∧ F.minPair = "" := by
    rcases runFold_min_spec vars999 PAIRS ⟨true, 999.0, "", []⟩ with
      ⟨h1, h2, _⟩ | ⟨i, hi, h1, _, h3, _, _⟩
    · exact ⟨h1, h2⟩
    · exfalso
      have hmem : PAIRS.get ⟨i, hi⟩ ∈ PAIRS := PAIRS.get_mem i hi
      have h1292 := (pairMin_vars999 _ hmem).1
      rw [h1292] at h1
      have h3b : (1292 : ℝ) < 999.0 := h1 ▸ h3
      norm_num at h3b
  have hratios : ∀ l ∈ F.lines, l.lightRatio = 1292 ∧ l.darkRatio = 1292 := by
    intro l hl
    rw [hlines] at hl
    rcases List.mem_map.mp hl with ⟨p, hpm, rfl⟩
    exact ⟨(pairMin_vars999 p hpm).2.1, (pairMin_vars999 p hpm).2.2⟩
  refine ⟨⟨F.lines, F.minRatio, F.minPair, if F.allPass then 0 else 1⟩,
    hmain, ?_, hmin.1, hmin.2, hratios, ?_, ?_⟩
  · rw [hlines, PAIRS]
    simp
  · intro l hl
    have hr := hratios l hl
    rw [hr.1, hr.2, hmin.1]
    norm_num
  · intro l hl
    rw [hlines] at hl
    rcases List.mem_map.mp hl with ⟨p, hpm, rfl⟩
    rw [hmin.2]
    fin_cases hpm <;> decide

end TokenContrast
